import Mathlib

/-
  Verification development for the live voice-session orchestration of the
  hello.ai repository: a per-call state machine that ingests transcription
  fragments, generates assistant replies, optionally synthesizes audio, and
  exposes the results to a polling client.

  The repository carries two near-duplicate voice services: one writes the
  synthesized audio to a durable file before recording a response entry
  (namespace Disk below) and one records the entry without persisting any
  file (namespace NoDisk below).  Both are embedded here, directly from
  their sources, together with the retrieval API route and the client-side
  playback poller.

  Awaited backend calls are modelled by explicit outcome parameters in an
  Env record: the generative backend as a function from the composed prompt
  to an outcome (a thrown error or a returned text, covering also a missing
  API key), the text-to-speech backend as its configuration flags plus a
  function from the input text to an optional audio payload, the file write
  as a success flag, and Date.now / new Date as a single Nat clock value.
  Each processTranscription call is modelled atomically: the busy flag makes
  any overlapping call for the same callId return before touching state, so
  the atomic summary is faithful for per-session observations.
-/

namespace HelloVoice

/-- Role string for a user turn in the conversation history. -/
def roleUser : String := "user"

/-- Role string for an assistant turn in the conversation history. -/
def roleAssistant : String := "assistant"

/-- Prompt label for user turns. -/
def labelUser : String := "User"

/-- Prompt label for assistant turns. -/
def labelAssistant : String := "Assistant"

/-- Separator between a prompt label and the turn content. -/
def labelSep : String := ": "

/-- Framing sentence appended to the instructions when building the prompt. -/
def promptFraming : String := "\n\nYou are having a conversation. Respond naturally and concisely."

/-- Header introducing the rendered conversation in the prompt. -/
def convHeader : String := "\n\nConversation:\n"

/-- Separator between rendered conversation turns in the prompt. -/
def partSep : String := "\n\n"

/-- Trailing assistant cue of the prompt. -/
def promptTail : String := "\n\nAssistant:"

/-- Fallback utterance returned when the generative backend yields empty text. -/
def fallbackResponse : String := "I apologize, but I could not generate a response."

/-- The empty string, used for falsy-string checks and for empty locators. -/
def emptyText : String := ""

/-- Directory part of the public URL under which audio artifacts are served. -/
def urlBase : String := "/audio-responses/"

/-- Separator between the call id and the timestamp in an artifact name. -/
def dashSep : String := "-"

/-- File extension of a generated audio artifact. -/
def wavSuffix : String := ".wav"

/-- One entry of a conversation history: a role tag and the turn content. -/
structure Msg where
  role : String
  content : String
deriving DecidableEq

/-- One recorded response: generated text, an audio locator (empty when no
audio artifact exists), and the timestamp at which it was recorded. -/
structure AudioResponse where
  text : String
  audioUrl : String
  timestamp : Nat
deriving DecidableEq

/-- The per-call session state of GeminiVoiceService.  The stored Stream
Call handle is omitted: it is only read for its id at session start. -/
structure GeminiVoiceSession where
  agentUserId : String
  instructions : String
  conversationHistory : List Msg
  isProcessing : Bool
  audioResponses : List AudioResponse
deriving DecidableEq

/-- The session registry: the Map from call id to live session state. -/
abbrev Sessions := String → Option GeminiVoiceSession

/-- The empty registry. -/
def emptySessions : Sessions := fun _ => none

/-- Registry update: Map.set on the call id. -/
def updateSession (sessions : Sessions) (callId : String) (s : GeminiVoiceSession) : Sessions :=
  fun c => if c = callId then some s else sessions c

/-- Outcome of one invocation of the generative-text backend: either the
call raises (network or auth failure, or a missing API key) or it returns
a text, possibly empty. -/
inductive GenOutcome where
  | throws
  | returns (text : String)
deriving DecidableEq

/-- Environment of one processTranscription call: the backend behaviors at
its two await points, the TTS configuration flags, whether the artifact
write succeeds, and the clock value. -/
structure Env where
  genBackend : String → GenOutcome
  keyfile : Bool
  projectId : Bool
  synthBackend : String → Option (List Nat)
  writeOk : Bool
  now : Nat

/-- Failure raised by generateGeminiResponse when the backend call throws. -/
inductive GenerationFailure where
  | backendRaised
deriving DecidableEq

/-- Failure raised by textToSpeech when the configured backend returns no
audio payload. -/
inductive SynthesisFailure where
  | noAudioContent
deriving DecidableEq

/-- Rendering of the conversation history as labelled prompt lines. -/
def conversationParts (history : List Msg) : List String :=
  history.map (fun m => (if m.role = roleUser then labelUser else labelAssistant) ++ labelSep ++ m.content)

/-- The single prompt composed from instructions, framing sentence, the
rendered history, and the trailing assistant cue. -/
def buildPrompt (instructions : String) (history : List Msg) : String :=
  instructions ++ promptFraming ++ convHeader
    ++ partSep.intercalate (conversationParts history) ++ promptTail

/-- GeminiVoiceService.generateGeminiResponse: composes the prompt, invokes
the backend, and replaces an empty backend result by the fixed fallback
string; a backend throw becomes a GenerationFailure. -/
def generateGeminiResponse (backend : String → GenOutcome)
    (instructions : String) (history : List Msg) : Except GenerationFailure String :=
  match backend (buildPrompt instructions history) with
  | GenOutcome.throws => Except.error GenerationFailure.backendRaised
  | GenOutcome.returns t => Except.ok (if t = emptyText then fallbackResponse else t)

/-- GeminiVoiceService.textToSpeech: when neither credential variable is
present the client is absent and the call returns none (text-only mode);
otherwise the backend is invoked with the fixed voice parameters, and a
missing audio payload raises a SynthesisFailure. -/
def textToSpeech (keyfile projectId : Bool) (synth : String → Option (List Nat))
    (text : String) : Except SynthesisFailure (Option (List Nat)) :=
  if !keyfile && !projectId then Except.ok none
  else
    match synth text with
    | none => Except.error SynthesisFailure.noAudioContent
    | some bytes => Except.ok (some bytes)

/-- Public URL assigned to an audio artifact of a call at a clock value. -/
def audioUrlFor (callId : String) (now : Nat) : String :=
  urlBase ++ callId ++ dashSep ++ toString now ++ wavSuffix

/-- GeminiVoiceService.startSession: stores a fresh session, replacing any
prior session for the same call id. -/
def startSession (sessions : Sessions) (callId agentUserId instructions : String) : Sessions :=
  updateSession sessions callId
    { agentUserId := agentUserId, instructions := instructions,
      conversationHistory := [], isProcessing := false, audioResponses := [] }

/-- GeminiVoiceService.endSession: deletes the session. -/
def endSession (sessions : Sessions) (callId : String) : Sessions :=
  fun c => if c = callId then none else sessions c

/-- GeminiVoiceService.hasSession. -/
def hasSession (sessions : Sessions) (callId : String) : Bool :=
  (sessions callId).isSome

/-- GeminiVoiceService.getAudioResponses: all recorded responses of a call,
empty when no session exists. -/
def getAudioResponses (sessions : Sessions) (callId : String) : List AudioResponse :=
  match sessions callId with
  | none => []
  | some s => s.audioResponses

/-- GeminiVoiceService.getLatestAudioResponse: the locator of the last
recorded response, or none. -/
def getLatestAudioResponse (sessions : Sessions) (callId : String) : Option String :=
  match sessions callId with
  | none => none
  | some s =>
    match s.audioResponses.getLast? with
    | none => none
    | some r => some r.audioUrl

namespace Disk

/-- processTranscription of the disk-persisting voice service: drop the
fragment when no session exists or a cycle is busy; drop agent self-echo;
otherwise set busy, append the user turn, generate, append the assistant
turn, optionally synthesize, write the artifact and record the response;
any pipeline throw is swallowed by the outer catch and the busy flag is
cleared by the finally block on every path. -/
def processTranscription (sessions : Sessions) (env : Env)
    (callId transcriptionText speakerId : String) : Sessions :=
  match sessions callId with
  | none => sessions
  | some session =>
    if session.isProcessing then sessions
    else if speakerId = session.agentUserId then sessions
    else
      let hist1 := session.conversationHistory ++ [⟨roleUser, transcriptionText⟩]
      match generateGeminiResponse env.genBackend session.instructions hist1 with
      | Except.error _ =>
        updateSession sessions callId
          { session with conversationHistory := hist1, isProcessing := false }
      | Except.ok geminiResponse =>
        let hist2 := hist1 ++ [⟨roleAssistant, geminiResponse⟩]
        match textToSpeech env.keyfile env.projectId env.synthBackend geminiResponse with
        | Except.error _ =>
          updateSession sessions callId
            { session with conversationHistory := hist2, isProcessing := false }
        | Except.ok none =>
          updateSession sessions callId
            { session with
                conversationHistory := hist2
                isProcessing := false
                audioResponses := session.audioResponses
                  ++ [⟨geminiResponse, emptyText, env.now⟩] }
        | Except.ok (some _) =>
          if env.writeOk then
            updateSession sessions callId
              { session with
                  conversationHistory := hist2
                  isProcessing := false
                  audioResponses := session.audioResponses
                    ++ [⟨geminiResponse, audioUrlFor callId env.now, env.now⟩] }
          else
            updateSession sessions callId
              { session with conversationHistory := hist2, isProcessing := false }

end Disk

namespace NoDisk

/-- processTranscription of the non-persisting voice service: identical to
the disk variant up to the recording step, but it records an entry with a
fabricated artifact URL whether or not audio was produced, and it never
writes a file. -/
def processTranscription (sessions : Sessions) (env : Env)
    (callId transcriptionText speakerId : String) : Sessions :=
  match sessions callId with
  | none => sessions
  | some session =>
    if session.isProcessing then sessions
    else if speakerId = session.agentUserId then sessions
    else
      let hist1 := session.conversationHistory ++ [⟨roleUser, transcriptionText⟩]
      match generateGeminiResponse env.genBackend session.instructions hist1 with
      | Except.error _ =>
        updateSession sessions callId
          { session with conversationHistory := hist1, isProcessing := false }
      | Except.ok geminiResponse =>
        let hist2 := hist1 ++ [⟨roleAssistant, geminiResponse⟩]
        match textToSpeech env.keyfile env.projectId env.synthBackend geminiResponse with
        | Except.error _ =>
          updateSession sessions callId
            { session with conversationHistory := hist2, isProcessing := false }
        | Except.ok _ =>
          updateSession sessions callId
            { session with
                conversationHistory := hist2
                isProcessing := false
                audioResponses := session.audioResponses
                  ++ [⟨geminiResponse, audioUrlFor callId env.now, env.now⟩] }

end NoDisk

/-- Response of the GET /api/gemini-audio/[meetingId] route: a 400 error
body when the meeting id is missing, the no-data body, the latest entry
body, or a 500 error body. -/
inductive ApiResp where
  | badRequest
  | noData
  | latest (audioUrl text : String) (timestamp : Nat)
  | serverError
deriving DecidableEq

/-- HTTP status code of each route response. -/
def statusOf : ApiResp → Nat
  | ApiResp.badRequest => 400
  | ApiResp.noData => 200
  | ApiResp.latest _ _ _ => 200
  | ApiResp.serverError => 500

/-- The GET /api/gemini-audio/[meetingId] handler.  The internalError flag
models the catch-all over unexpected runtime throws inside the try block;
the model body itself cannot throw.  An absent meeting id arrives as the
empty (falsy) string.  The timestamp is carried as the entry clock value;
the route serializes it with toISOString, which is injective on it. -/
def getGeminiAudio (sessions : Sessions) (meetingId : String)
    (internalError : Bool) : ApiResp :=
  if internalError then ApiResp.serverError
  else if meetingId = emptyText then ApiResp.badRequest
  else
    match (getAudioResponses sessions meetingId).getLast? with
    | none => ApiResp.noData
    | some r => ApiResp.latest r.audioUrl r.text r.timestamp

/-- State of the client playback poller GeminiAudioPlayer: the last locator
accepted for playback, whether audio is currently playing, the audio
element source, the queued playback-end swap handlers as (locator, source)
pairs in registration order, and the trace of locators passed to play. -/
structure PlayerState where
  lastPlayedUrl : Option String
  isPlaying : Bool
  src : String
  pending : List (String × String)
  played : List String
deriving DecidableEq

/-- Initial poller state: fresh audio element, nothing played. -/
def initPlayer : PlayerState := ⟨none, false, emptyText, [], []⟩

/-- Cache-busting query prefix appended to a locator to form the source. -/
def cacheBust : String := "?t="

/-- Events driving the poller: a completed poll carrying the audioUrl field
of the response (none models a null field) and the clock value, a failed
or non-ok poll, and the playback-end event of the audio element. -/
inductive PollEvent where
  | fetched (audioUrl : Option String) (now : Nat)
  | fetchFailed
  | ended
deriving DecidableEq

/-- One step of the poller.  A poll result is ignored when the locator is
falsy or equals the last accepted locator; otherwise the last accepted
locator is updated and, unless the element source already equals the new
source, the swap is queued while playing or applied immediately when idle.
Playback-end clears the playing flag and then fires the queued handlers in
order, each setting the source and restarting playback; starting playback
is summarized as the playing flag becoming true. -/
def pollerStep (s : PlayerState) : PollEvent → PlayerState
  | PollEvent.fetchFailed => s
  | PollEvent.fetched audioUrl now =>
    match audioUrl with
    | none => s
    | some url =>
      if url = emptyText then s
      else if some url = s.lastPlayedUrl then s
      else
        let srcUrl := url ++ cacheBust ++ toString now
        if s.src = srcUrl then { s with lastPlayedUrl := some url }
        else if s.isPlaying then
          { s with lastPlayedUrl := some url, pending := s.pending ++ [(url, srcUrl)] }
        else
          { s with
              lastPlayedUrl := some url
              src := srcUrl
              isPlaying := true
              played := s.played ++ [url] }
  | PollEvent.ended =>
    match s.pending with
    | [] => { s with isPlaying := false }
    | (l, q) :: rest =>
      { s with
          isPlaying := true
          pending := []
          played := s.played ++ (l :: rest.map Prod.fst)
          src := (rest.map Prod.snd).getLast?.getD q }

/-- Run the poller from a given state over a list of events. -/
def pollerRunFrom (s : PlayerState) (events : List PollEvent) : PlayerState :=
  events.foldl pollerStep s

/-- Run the poller from the initial state. -/
def pollerRun (events : List PollEvent) : PlayerState :=
  pollerRunFrom initPlayer events

/-- The locators a feed presents to the poller, in acceptance order: a
fetched locator counts when it is truthy and differs from the previously
accepted one.  The repository feed only ever re-presents the locator it
presented last (the latest entry of an append-only feed whose artifact
names embed a non-decreasing clock), so its accepted sequences contain no
duplicates. -/
def acceptedUrls : Option String → List PollEvent → List String
  | _, [] => []
  | last, PollEvent.fetched (some url) _ :: es =>
    if url ≠ emptyText ∧ some url ≠ last then url :: acceptedUrls (some url) es
    else acceptedUrls last es
  | last, PollEvent.fetched none _ :: es => acceptedUrls last es
  | last, PollEvent.fetchFailed :: es => acceptedUrls last es
  | last, PollEvent.ended :: es => acceptedUrls last es

/-- One ingest call on a session: the per-call environment, the transcript
fragment, and the speaker. -/
structure TurnInput where
  env : Env
  text : String
  speakerId : String

/-- Run a list of ingest calls for one call id through the disk-persisting
service. -/
def runTurns (c : String) (sessions : Sessions) : List TurnInput → Sessions
  | [] => sessions
  | tu :: ts => runTurns c (Disk.processTranscription sessions tu.env c tu.text tu.speakerId) ts

/-- The ingest calls not dropped by self-echo suppression. -/
def acceptedTurns (agentId : String) (turns : List TurnInput) : List TurnInput :=
  turns.filter (fun tu => tu.speakerId != agentId)

/-- Modelled from the spec sentence on conversation shape: the history
fragment a list of successful turns must contribute, one user entry holding
the transcribed fragment followed by one assistant entry holding the
generated response per turn, in call order; none when some turn's
generation fails. -/
def specTurnsHistory (instructions : String) : List Msg → List TurnInput → Option (List Msg)
  | _, [] => some []
  | acc, tu :: ts =>
    match generateGeminiResponse tu.env.genBackend instructions (acc ++ [⟨roleUser, tu.text⟩]) with
    | Except.error _ => none
    | Except.ok g =>
      match specTurnsHistory instructions (acc ++ [⟨roleUser, tu.text⟩, ⟨roleAssistant, g⟩]) ts with
      | none => none
      | some rest => some (⟨roleUser, tu.text⟩ :: ⟨roleAssistant, g⟩ :: rest)

/-- One operation of a voice-service run, shared by both implementations. -/
inductive Op where
  | start (callId agentUserId instructions : String)
  | transcript (env : Env) (callId text speakerId : String)
  | stop (callId : String)

/-- Whether an operation's artifact write succeeds (trivially true for the
non-transcript operations, which write nothing). -/
def opWriteOk : Op → Bool
  | Op.transcript e _ _ _ => e.writeOk
  | _ => true

/-- One operation of the disk-persisting service. -/
def stepOpDisk (sessions : Sessions) : Op → Sessions
  | Op.start c a i => startSession sessions c a i
  | Op.transcript e c t sp => Disk.processTranscription sessions e c t sp
  | Op.stop c => endSession sessions c

/-- One operation of the non-persisting service. -/
def stepOpNoDisk (sessions : Sessions) : Op → Sessions
  | Op.start c a i => startSession sessions c a i
  | Op.transcript e c t sp => NoDisk.processTranscription sessions e c t sp
  | Op.stop c => endSession sessions c

/-- Run a sequence of operations through the disk-persisting service. -/
def runOpsDisk (sessions : Sessions) (ops : List Op) : Sessions :=
  ops.foldl stepOpDisk sessions

/-- Run a sequence of operations through the non-persisting service. -/
def runOpsNoDisk (sessions : Sessions) (ops : List Op) : Sessions :=
  ops.foldl stepOpNoDisk sessions

/-- Sample call id used by the concrete witnesses below. -/
def sampleCall : String := "call-1"

/-- A call id with no session, used by the concrete witnesses below. -/
def sampleCall2 : String := "call-2"

/-- Sample agent participant id. -/
def sampleAgent : String := "agent-x"

/-- Sample human speaker id. -/
def sampleUser : String := "user-1"

/-- Sample session instructions. -/
def sampleInstr : String := "Be concise."

/-- Sample transcript fragment. -/
def sampleFrag : String := "What is the weather"

/-- Sample generated reply. -/
def sampleReply : String := "Sunny."

/-- Environment with a succeeding generator and no TTS configured. -/
def envNoTTS : Env :=
  ⟨fun _ => GenOutcome.returns sampleReply, false, false, fun _ => none, true, 5⟩

/-- Environment with a succeeding generator and a configured TTS backend
that returns an audio payload. -/
def envTTSOk : Env :=
  ⟨fun _ => GenOutcome.returns sampleReply, true, true, fun _ => some [1, 2, 3], true, 5⟩

/-- Environment with a succeeding generator and a configured TTS backend
that returns no audio payload. -/
def envTTSFail : Env :=
  ⟨fun _ => GenOutcome.returns sampleReply, true, true, fun _ => none, true, 5⟩

/-- Environment whose generative backend throws. -/
def envGenThrow : Env :=
  ⟨fun _ => GenOutcome.throws, false, false, fun _ => none, true, 5⟩

/-- Registry holding one fresh sample session. -/
def sampleSessions : Sessions :=
  startSession emptySessions sampleCall sampleAgent sampleInstr

/-- The fresh sample session itself. -/
def sampleSession : GeminiVoiceSession :=
  ⟨sampleAgent, sampleInstr, [], false, []⟩

/-- Agreement of two optional sessions up to audio persistence: both absent,
or both present with the same agent id, instructions, history, busy flag,
and recorded response texts. -/
def SessionAgree : Option GeminiVoiceSession → Option GeminiVoiceSession → Prop
  | none, none => True
  | some a, some b =>
    a.agentUserId = b.agentUserId ∧ a.instructions = b.instructions
      ∧ a.conversationHistory = b.conversationHistory
      ∧ a.isProcessing = b.isProcessing
      ∧ a.audioResponses.map (fun r => r.text) = b.audioResponses.map (fun r => r.text)
  | _, _ => False

/-- A second sample fragment. -/
def sampleFrag2 : String := "Tell me more"

/-- Sample turn sequence: an accepted no-TTS turn, a dropped agent-echo
turn, and an accepted turn with audio. -/
def sampleTurns : List TurnInput :=
  [⟨envNoTTS, sampleFrag, sampleUser⟩,
   ⟨envNoTTS, sampleFrag2, sampleAgent⟩,
   ⟨envTTSOk, sampleFrag2, sampleUser⟩]

/-- Sample operation sequence exercising start, ingest and stop. -/
def sampleOps : List Op :=
  [Op.start sampleCall sampleAgent sampleInstr,
   Op.transcript envNoTTS sampleCall sampleFrag sampleUser,
   Op.transcript envTTSOk sampleCall sampleFrag2 sampleUser,
   Op.transcript envGenThrow sampleCall sampleFrag sampleUser,
   Op.stop sampleCall2]

/-- Sample poll event sequence: a played locator, a null poll, a failed
poll, a queued swap while playing, and two playback ends. -/
def sampleEvents : List PollEvent :=
  [PollEvent.fetched (some sampleCall) 1,
   PollEvent.fetched none 2,
   PollEvent.fetchFailed,
   PollEvent.fetched (some sampleCall2) 3,
   PollEvent.ended,
   PollEvent.ended]

/-- A sample recorded response entry. -/
def sampleEntry : AudioResponse := ⟨sampleReply, audioUrlFor sampleCall 5, 5⟩

/-- Registry whose sample session holds one recorded response. -/
def sampleSessionsR : Sessions :=
  updateSession sampleSessions sampleCall
    ⟨sampleAgent, sampleInstr,
      [⟨roleUser, sampleFrag⟩, ⟨roleAssistant, sampleReply⟩], false, [sampleEntry]⟩

/-- A poller state in the middle of playing one locator. -/
def samplePlaying : PlayerState :=
  ⟨some sampleCall, true, sampleCall ++ cacheBust ++ toString 1, [], [sampleCall]⟩

/-- A poller state playing one locator with a pending swap queued. -/
def samplePendingSwap : PlayerState :=
  ⟨some sampleCall2, true, sampleCall ++ cacheBust ++ toString 1,
   [(sampleCall2, sampleCall2 ++ cacheBust ++ toString 3)], [sampleCall]⟩

lemma updateSession_self (sessions : Sessions) (c : String) (s : GeminiVoiceSession) :
    updateSession sessions c s c = some s := by
  simp [updateSession]

lemma updateSession_other (sessions : Sessions) (c x : String) (s : GeminiVoiceSession)
    (h : ¬ x = c) : updateSession sessions c s x = sessions x := by
  simp [updateSession, h]

lemma disk_drop_none (sessions : Sessions) (env : Env) (c t sp : String)
    (h : sessions c = none) :
    Disk.processTranscription sessions env c t sp = sessions := by
  simp [Disk.processTranscription, h]

lemma disk_drop_busy (sessions : Sessions) (env : Env) (c t sp : String)
    (s : GeminiVoiceSession) (h : sessions c = some s) (hb : s.isProcessing = true) :
    Disk.processTranscription sessions env c t sp = sessions := by
  simp [Disk.processTranscription, h, hb]

lemma disk_drop_agent (sessions : Sessions) (env : Env) (c t sp : String)
    (s : GeminiVoiceSession) (h : sessions c = some s) (hsp : sp = s.agentUserId) :
    Disk.processTranscription sessions env c t sp = sessions := by
  by_cases hb : s.isProcessing
  · simp [Disk.processTranscription, h, hb]
  · simp [Disk.processTranscription, h, hb, hsp]

lemma nodisk_drop_none (sessions : Sessions) (env : Env) (c t sp : String)
    (h : sessions c = none) :
    NoDisk.processTranscription sessions env c t sp = sessions := by
  simp [NoDisk.processTranscription, h]

lemma nodisk_drop_busy (sessions : Sessions) (env : Env) (c t sp : String)
    (s : GeminiVoiceSession) (h : sessions c = some s) (hb : s.isProcessing = true) :
    NoDisk.processTranscription sessions env c t sp = sessions := by
  simp [NoDisk.processTranscription, h, hb]

lemma nodisk_drop_agent (sessions : Sessions) (env : Env) (c t sp : String)
    (s : GeminiVoiceSession) (h : sessions c = some s) (hsp : sp = s.agentUserId) :
    NoDisk.processTranscription sessions env c t sp = sessions := by
  by_cases hb : s.isProcessing
  · simp [NoDisk.processTranscription, h, hb]
  · simp [NoDisk.processTranscription, h, hb, hsp]

lemma disk_ttsSome (sessions : Sessions) (env : Env) (c t sp : String)
    (s : GeminiVoiceSession) (g : String) (bytes : List Nat) (h : sessions c = some s)
    (hb : s.isProcessing = false) (hsp : ¬ sp = s.agentUserId)
    (hg : generateGeminiResponse env.genBackend s.instructions
      (s.conversationHistory ++ [⟨roleUser, t⟩]) = Except.ok g)
    (htts : textToSpeech env.keyfile env.projectId env.synthBackend g
      = Except.ok (some bytes))
    (hw : env.writeOk = true) :
    Disk.processTranscription sessions env c t sp =
      updateSession sessions c
        { s with
            conversationHistory := s.conversationHistory ++ [⟨roleUser, t⟩, ⟨roleAssistant, g⟩]
            isProcessing := false
            audioResponses := s.audioResponses ++ [⟨g, audioUrlFor c env.now, env.now⟩] } := by
  simp [Disk.processTranscription, h, hb, hsp, hg, htts, hw]

lemma nodisk_ttsOk (sessions : Sessions) (env : Env) (c t sp : String)
    (s : GeminiVoiceSession) (g : String) (o : Option (List Nat)) (h : sessions c = some s)
    (hb : s.isProcessing = false) (hsp : ¬ sp = s.agentUserId)
    (hg : generateGeminiResponse env.genBackend s.instructions
      (s.conversationHistory ++ [⟨roleUser, t⟩]) = Except.ok g)
    (htts : textToSpeech env.keyfile env.projectId env.synthBackend g = Except.ok o) :
    NoDisk.processTranscription sessions env c t sp =
      updateSession sessions c
        { s with
            conversationHistory := s.conversationHistory ++ [⟨roleUser, t⟩, ⟨roleAssistant, g⟩]
            isProcessing := false
            audioResponses := s.audioResponses ++ [⟨g, audioUrlFor c env.now, env.now⟩] } := by
  simp [NoDisk.processTranscription, h, hb, hsp, hg, htts]

lemma disk_genError (sessions : Sessions) (env : Env) (c t sp : String)
    (s : GeminiVoiceSession) (h : sessions c = some s) (hb : s.isProcessing = false)
    (hsp : ¬ sp = s.agentUserId)
    (hg : generateGeminiResponse env.genBackend s.instructions
      (s.conversationHistory ++ [⟨roleUser, t⟩]) = Except.error GenerationFailure.backendRaised) :
    Disk.processTranscription sessions env c t sp =
      updateSession sessions c
        { s with
            conversationHistory := s.conversationHistory ++ [⟨roleUser, t⟩]
            isProcessing := false } := by
  simp [Disk.processTranscription, h, hb, hsp, hg]

lemma nodisk_genError (sessions : Sessions) (env : Env) (c t sp : String)
    (s : GeminiVoiceSession) (h : sessions c = some s) (hb : s.isProcessing = false)
    (hsp : ¬ sp = s.agentUserId)
    (hg : generateGeminiResponse env.genBackend s.instructions
      (s.conversationHistory ++ [⟨roleUser, t⟩]) = Except.error GenerationFailure.backendRaised) :
    NoDisk.processTranscription sessions env c t sp =
      updateSession sessions c
        { s with
            conversationHistory := s.conversationHistory ++ [⟨roleUser, t⟩]
            isProcessing := false } := by
  simp [NoDisk.processTranscription, h, hb, hsp, hg]

lemma disk_accepted (sessions : Sessions) (env : Env) (c t sp : String)
    (s : GeminiVoiceSession) (g : String) (h : sessions c = some s)
    (hb : s.isProcessing = false) (hsp : ¬ sp = s.agentUserId)
    (hg : generateGeminiResponse env.genBackend s.instructions
      (s.conversationHistory ++ [⟨roleUser, t⟩]) = Except.ok g) :
    ∃ rs : List AudioResponse,
      Disk.processTranscription sessions env c t sp =
        updateSession sessions c
          { s with
              conversationHistory := s.conversationHistory ++ [⟨roleUser, t⟩, ⟨roleAssistant, g⟩]
              isProcessing := false
              audioResponses := s.audioResponses ++ rs } := by
  cases htts : textToSpeech env.keyfile env.projectId env.synthBackend g with
  | error e =>
    refine ⟨[], ?_⟩
    simp [Disk.processTranscription, h, hb, hsp, hg, htts]
  | ok o =>
    cases o with
    | none =>
      refine ⟨[⟨g, emptyText, env.now⟩], ?_⟩
      simp [Disk.processTranscription, h, hb, hsp, hg, htts]
    | some bytes =>
      by_cases hw : env.writeOk
      · refine ⟨[⟨g, audioUrlFor c env.now, env.now⟩], ?_⟩
        simp [Disk.processTranscription, h, hb, hsp, hg, htts, hw]
      · refine ⟨[], ?_⟩
        simp [Disk.processTranscription, h, hb, hsp, hg, htts, hw]

lemma nodisk_accepted (sessions : Sessions) (env : Env) (c t sp : String)
    (s : GeminiVoiceSession) (g : String) (h : sessions c = some s)
    (hb : s.isProcessing = false) (hsp : ¬ sp = s.agentUserId)
    (hg : generateGeminiResponse env.genBackend s.instructions
      (s.conversationHistory ++ [⟨roleUser, t⟩]) = Except.ok g) :
    ∃ rs : List AudioResponse,
      NoDisk.processTranscription sessions env c t sp =
        updateSession sessions c
          { s with
              conversationHistory := s.conversationHistory ++ [⟨roleUser, t⟩, ⟨roleAssistant, g⟩]
              isProcessing := false
              audioResponses := s.audioResponses ++ rs } := by
  cases htts : textToSpeech env.keyfile env.projectId env.synthBackend g with
  | error e =>
    refine ⟨[], ?_⟩
    simp [NoDisk.processTranscription, h, hb, hsp, hg, htts]
  | ok o =>
    refine ⟨[⟨g, audioUrlFor c env.now, env.now⟩], ?_⟩
    simp [NoDisk.processTranscription, h, hb, hsp, hg, htts]

lemma disk_ttsError (sessions : Sessions) (env : Env) (c t sp : String)
    (s : GeminiVoiceSession) (g : String) (h : sessions c = some s)
    (hb : s.isProcessing = false) (hsp : ¬ sp = s.agentUserId)
    (hg : generateGeminiResponse env.genBackend s.instructions
      (s.conversationHistory ++ [⟨roleUser, t⟩]) = Except.ok g)
    (htts : textToSpeech env.keyfile env.projectId env.synthBackend g
      = Except.error SynthesisFailure.noAudioContent) :
    Disk.processTranscription sessions env c t sp =
      updateSession sessions c
        { s with
            conversationHistory := s.conversationHistory ++ [⟨roleUser, t⟩, ⟨roleAssistant, g⟩]
            isProcessing := false } := by
  simp [Disk.processTranscription, h, hb, hsp, hg, htts]

lemma nodisk_ttsError (sessions : Sessions) (env : Env) (c t sp : String)
    (s : GeminiVoiceSession) (g : String) (h : sessions c = some s)
    (hb : s.isProcessing = false) (hsp : ¬ sp = s.agentUserId)
    (hg : generateGeminiResponse env.genBackend s.instructions
      (s.conversationHistory ++ [⟨roleUser, t⟩]) = Except.ok g)
    (htts : textToSpeech env.keyfile env.projectId env.synthBackend g
      = Except.error SynthesisFailure.noAudioContent) :
    NoDisk.processTranscription sessions env c t sp =
      updateSession sessions c
        { s with
            conversationHistory := s.conversationHistory ++ [⟨roleUser, t⟩, ⟨roleAssistant, g⟩]
            isProcessing := false } := by
  simp [NoDisk.processTranscription, h, hb, hsp, hg, htts]

lemma disk_ttsNone (sessions : Sessions) (env : Env) (c t sp : String)
    (s : GeminiVoiceSession) (g : String) (h : sessions c = some s)
    (hb : s.isProcessing = false) (hsp : ¬ sp = s.agentUserId)
    (hg : generateGeminiResponse env.genBackend s.instructions
      (s.conversationHistory ++ [⟨roleUser, t⟩]) = Except.ok g)
    (htts : textToSpeech env.keyfile env.projectId env.synthBackend g = Except.ok none) :
    Disk.processTranscription sessions env c t sp =
      updateSession sessions c
        { s with
            conversationHistory := s.conversationHistory ++ [⟨roleUser, t⟩, ⟨roleAssistant, g⟩]
            isProcessing := false
            audioResponses := s.audioResponses ++ [⟨g, emptyText, env.now⟩] } := by
  simp [Disk.processTranscription, h, hb, hsp, hg, htts]

lemma nodisk_ttsNone (sessions : Sessions) (env : Env) (c t sp : String)
    (s : GeminiVoiceSession) (g : String) (h : sessions c = some s)
    (hb : s.isProcessing = false) (hsp : ¬ sp = s.agentUserId)
    (hg : generateGeminiResponse env.genBackend s.instructions
      (s.conversationHistory ++ [⟨roleUser, t⟩]) = Except.ok g)
    (htts : textToSpeech env.keyfile env.projectId env.synthBackend g = Except.ok none) :
    NoDisk.processTranscription sessions env c t sp =
      updateSession sessions c
        { s with
            conversationHistory := s.conversationHistory ++ [⟨roleUser, t⟩, ⟨roleAssistant, g⟩]
            isProcessing := false
            audioResponses := s.audioResponses ++ [⟨g, audioUrlFor c env.now, env.now⟩] } := by
  simp [NoDisk.processTranscription, h, hb, hsp, hg, htts]

/-- C1: a processTranscription call for a call id with no session, or whose
session has the busy flag set, returns immediately and leaves the registry
(and hence the session's conversationHistory and responses) completely
unchanged, in both voice-service implementations; the fragment is dropped,
never queued, which is what keeps at most one generation cycle in flight
per call id. -/
theorem processTranscription_drops_absent_or_busy (sessions : Sessions) (env : Env)
    (c t sp : String)
    (h : sessions c = none ∨ ∃ s, sessions c = some s ∧ s.isProcessing = true) :
    Disk.processTranscription sessions env c t sp = sessions ∧
    NoDisk.processTranscription sessions env c t sp = sessions := by
  rcases h with h | ⟨s, hs, hb⟩
  · exact ⟨disk_drop_none sessions env c t sp h, nodisk_drop_none sessions env c t sp h⟩
  · exact ⟨disk_drop_busy sessions env c t sp s hs hb,
      nodisk_drop_busy sessions env c t sp s hs hb⟩

/-- Witness for C1 at a concrete absent call id. -/
theorem processTranscription_drops_absent_or_busy_witness :
    Disk.processTranscription sampleSessions envNoTTS sampleCall2 sampleFrag sampleUser
      = sampleSessions ∧
    NoDisk.processTranscription sampleSessions envNoTTS sampleCall2 sampleFrag sampleUser
      = sampleSessions :=
  processTranscription_drops_absent_or_busy sampleSessions envNoTTS sampleCall2
    sampleFrag sampleUser (Or.inl (by decide))

/-- C2: every processTranscription invocation that sets the busy flag (an
accepted fragment) leaves the session with the busy flag cleared when it
returns, on every path of the pipeline, in both implementations. -/
theorem busy_flag_always_released (sessions : Sessions) (env : Env) (c t sp : String)
    (s : GeminiVoiceSession) (hs : sessions c = some s) (hb : s.isProcessing = false)
    (hsp : ¬ sp = s.agentUserId) :
    (∃ s2, (Disk.processTranscription sessions env c t sp) c = some s2
      ∧ s2.isProcessing = false) ∧
    (∃ s2, (NoDisk.processTranscription sessions env c t sp) c = some s2
      ∧ s2.isProcessing = false) := by
  cases hg : generateGeminiResponse env.genBackend s.instructions
      (s.conversationHistory ++ [⟨roleUser, t⟩]) with
  | error e =>
    cases e
    constructor
    · rw [disk_genError sessions env c t sp s hs hb hsp hg]
      exact ⟨_, updateSession_self _ _ _, rfl⟩
    · rw [nodisk_genError sessions env c t sp s hs hb hsp hg]
      exact ⟨_, updateSession_self _ _ _, rfl⟩
  | ok g =>
    obtain ⟨rs1, h1⟩ := disk_accepted sessions env c t sp s g hs hb hsp hg
    obtain ⟨rs2, h2⟩ := nodisk_accepted sessions env c t sp s g hs hb hsp hg
    constructor
    · rw [h1]
      exact ⟨_, updateSession_self _ _ _, rfl⟩
    · rw [h2]
      exact ⟨_, updateSession_self _ _ _, rfl⟩

/-- Witness for C2 at a concrete accepted turn. -/
theorem busy_flag_always_released_witness :
    (∃ s2, (Disk.processTranscription sampleSessions envTTSOk sampleCall sampleFrag sampleUser)
      sampleCall = some s2 ∧ s2.isProcessing = false) ∧
    (∃ s2, (NoDisk.processTranscription sampleSessions envTTSOk sampleCall sampleFrag sampleUser)
      sampleCall = some s2 ∧ s2.isProcessing = false) :=
  busy_flag_always_released sampleSessions envTTSOk sampleCall sampleFrag sampleUser
    sampleSession (by decide) (by decide) (by decide)

/-- C3: a fragment whose speaker is the session's agent participant leaves
the registry, and hence the session's conversationHistory and responses,
completely unchanged in both implementations; so no user turn attributed
to the agent participant is ever appended. -/
theorem agent_fragment_never_mutates (sessions : Sessions) (env : Env) (c t : String)
    (s : GeminiVoiceSession) (hs : sessions c = some s) :
    Disk.processTranscription sessions env c t s.agentUserId = sessions ∧
    NoDisk.processTranscription sessions env c t s.agentUserId = sessions :=
  ⟨disk_drop_agent sessions env c t s.agentUserId s hs rfl,
   nodisk_drop_agent sessions env c t s.agentUserId s hs rfl⟩

/-- Witness for C3 at the concrete sample session. -/
theorem agent_fragment_never_mutates_witness :
    Disk.processTranscription sampleSessions envNoTTS sampleCall sampleFrag
      sampleSession.agentUserId = sampleSessions ∧
    NoDisk.processTranscription sampleSessions envNoTTS sampleCall sampleFrag
      sampleSession.agentUserId = sampleSessions :=
  agent_fragment_never_mutates sampleSessions envNoTTS sampleCall sampleFrag
    sampleSession (by decide)

/-- C4: when the generative backend raises during an accepted turn, the
call still returns (the model function is total and the error is only
logged), no response entry is recorded, no assistant turn is appended, and
the already-appended user turn stays in the history, in both
implementations. -/
theorem generation_error_contained (sessions : Sessions) (env : Env) (c t sp : String)
    (s : GeminiVoiceSession) (hs : sessions c = some s) (hb : s.isProcessing = false)
    (hsp : ¬ sp = s.agentUserId)
    (hg : env.genBackend (buildPrompt s.instructions
      (s.conversationHistory ++ [⟨roleUser, t⟩])) = GenOutcome.throws) :
    Disk.processTranscription sessions env c t sp =
      updateSession sessions c
        { s with
            conversationHistory := s.conversationHistory ++ [⟨roleUser, t⟩]
            isProcessing := false } ∧
    NoDisk.processTranscription sessions env c t sp =
      updateSession sessions c
        { s with
            conversationHistory := s.conversationHistory ++ [⟨roleUser, t⟩]
            isProcessing := false } := by
  have hg2 : generateGeminiResponse env.genBackend s.instructions
      (s.conversationHistory ++ [⟨roleUser, t⟩])
      = Except.error GenerationFailure.backendRaised := by
    simp [generateGeminiResponse, hg]
  exact ⟨disk_genError sessions env c t sp s hs hb hsp hg2,
    nodisk_genError sessions env c t sp s hs hb hsp hg2⟩

/-- Witness for C4 at a concrete throwing backend. -/
theorem generation_error_contained_witness :
    Disk.processTranscription sampleSessions envGenThrow sampleCall sampleFrag sampleUser =
      updateSession sampleSessions sampleCall
        { sampleSession with
            conversationHistory := sampleSession.conversationHistory ++ [⟨roleUser, sampleFrag⟩]
            isProcessing := false } ∧
    NoDisk.processTranscription sampleSessions envGenThrow sampleCall sampleFrag sampleUser =
      updateSession sampleSessions sampleCall
        { sampleSession with
            conversationHistory := sampleSession.conversationHistory ++ [⟨roleUser, sampleFrag⟩]
            isProcessing := false } :=
  generation_error_contained sampleSessions envGenThrow sampleCall sampleFrag sampleUser
    sampleSession (by decide) (by decide) (by decide) (by decide)

/-- C5 counterexample: an accepted turn on a fresh session with the TTS
backend configured but returning no payload ends with an empty responses
list — no text-only entry is recorded, contrary to the claim that the
synthesis failure is downgraded to a recorded text-only response. -/
theorem synthesis_failure_records_nothing_cex :
    (Disk.processTranscription sampleSessions envTTSFail sampleCall sampleFrag sampleUser)
      sampleCall =
      some ⟨sampleAgent, sampleInstr,
        [⟨roleUser, sampleFrag⟩, ⟨roleAssistant, sampleReply⟩], false, []⟩ := by
  decide

/-- C5 amended: textToSpeech does fail when configured without a payload,
but the failure is not caught locally: it propagates to the outer catch of
processTranscription, so the turn terminates with no response entry
recorded, while the user and assistant turns stay in the history and the
call returns with the busy flag cleared, in both implementations. -/
theorem synthesis_failure_terminates_turn (sessions : Sessions) (env : Env)
    (c t sp : String) (s : GeminiVoiceSession) (g : String)
    (hs : sessions c = some s) (hb : s.isProcessing = false)
    (hsp : ¬ sp = s.agentUserId)
    (hg : generateGeminiResponse env.genBackend s.instructions
      (s.conversationHistory ++ [⟨roleUser, t⟩]) = Except.ok g)
    (hcfg : env.keyfile = true ∨ env.projectId = true)
    (hsynth : env.synthBackend g = none) :
    textToSpeech env.keyfile env.projectId env.synthBackend g
      = Except.error SynthesisFailure.noAudioContent ∧
    Disk.processTranscription sessions env c t sp =
      updateSession sessions c
        { s with
            conversationHistory := s.conversationHistory ++ [⟨roleUser, t⟩, ⟨roleAssistant, g⟩]
            isProcessing := false } ∧
    NoDisk.processTranscription sessions env c t sp =
      updateSession sessions c
        { s with
            conversationHistory := s.conversationHistory ++ [⟨roleUser, t⟩, ⟨roleAssistant, g⟩]
            isProcessing := false } := by
  have htts : textToSpeech env.keyfile env.projectId env.synthBackend g
      = Except.error SynthesisFailure.noAudioContent := by
    rcases hcfg with hk | hp
    · simp [textToSpeech, hk, hsynth]
    · simp [textToSpeech, hp, hsynth]
  exact ⟨htts, disk_ttsError sessions env c t sp s g hs hb hsp hg htts,
    nodisk_ttsError sessions env c t sp s g hs hb hsp hg htts⟩

/-- Witness for the amended C5 at a concrete configured-but-failing TTS. -/
theorem synthesis_failure_terminates_turn_witness :
    textToSpeech envTTSFail.keyfile envTTSFail.projectId envTTSFail.synthBackend sampleReply
      = Except.error SynthesisFailure.noAudioContent ∧
    Disk.processTranscription sampleSessions envTTSFail sampleCall sampleFrag sampleUser =
      updateSession sampleSessions sampleCall
        { sampleSession with
            conversationHistory := sampleSession.conversationHistory
              ++ [⟨roleUser, sampleFrag⟩, ⟨roleAssistant, sampleReply⟩]
            isProcessing := false } ∧
    NoDisk.processTranscription sampleSessions envTTSFail sampleCall sampleFrag sampleUser =
      updateSession sampleSessions sampleCall
        { sampleSession with
            conversationHistory := sampleSession.conversationHistory
              ++ [⟨roleUser, sampleFrag⟩, ⟨roleAssistant, sampleReply⟩]
            isProcessing := false } :=
  synthesis_failure_terminates_turn sampleSessions envTTSFail sampleCall sampleFrag
    sampleUser sampleSession sampleReply (by decide) (by decide) (by decide)
    (by rfl) (Or.inl (by decide)) (by rfl)

/-- C6 counterexample: in the non-persisting implementation an accepted
turn with unconfigured TTS records an entry whose locator is the fabricated
artifact URL, which is not empty — contrary to the claim that the recorded
locator is absent or empty. -/
theorem unconfigured_tts_locator_cex :
    ((NoDisk.processTranscription sampleSessions envNoTTS sampleCall sampleFrag sampleUser)
        sampleCall).map (fun s => s.audioResponses.map (fun r => r.audioUrl))
      = some [audioUrlFor sampleCall 5] ∧
    ¬ audioUrlFor sampleCall 5 = emptyText := by
  constructor
  · decide
  · decide

/-- C6 amended: with TTS unconfigured, textToSpeech returns none rather
than failing, and the accepted turn still records a response entry with the
generated text and is not treated as failed; the disk-persisting
implementation records an empty locator, while the non-persisting one
records a fabricated non-empty locator naming a file that is never
written. -/
theorem unconfigured_tts_text_only (sessions : Sessions) (env : Env)
    (c t sp : String) (s : GeminiVoiceSession) (g : String)
    (hs : sessions c = some s) (hb : s.isProcessing = false)
    (hsp : ¬ sp = s.agentUserId)
    (hg : generateGeminiResponse env.genBackend s.instructions
      (s.conversationHistory ++ [⟨roleUser, t⟩]) = Except.ok g)
    (hk : env.keyfile = false) (hp : env.projectId = false) :
    textToSpeech env.keyfile env.projectId env.synthBackend g = Except.ok none ∧
    Disk.processTranscription sessions env c t sp =
      updateSession sessions c
        { s with
            conversationHistory := s.conversationHistory ++ [⟨roleUser, t⟩, ⟨roleAssistant, g⟩]
            isProcessing := false
            audioResponses := s.audioResponses ++ [⟨g, emptyText, env.now⟩] } ∧
    NoDisk.processTranscription sessions env c t sp =
      updateSession sessions c
        { s with
            conversationHistory := s.conversationHistory ++ [⟨roleUser, t⟩, ⟨roleAssistant, g⟩]
            isProcessing := false
            audioResponses := s.audioResponses ++ [⟨g, audioUrlFor c env.now, env.now⟩] } := by
  have htts : textToSpeech env.keyfile env.projectId env.synthBackend g = Except.ok none := by
    simp [textToSpeech, hk, hp]
  exact ⟨htts, disk_ttsNone sessions env c t sp s g hs hb hsp hg htts,
    nodisk_ttsNone sessions env c t sp s g hs hb hsp hg htts⟩

/-- Witness for the amended C6 at a concrete unconfigured TTS. -/
theorem unconfigured_tts_text_only_witness :
    textToSpeech envNoTTS.keyfile envNoTTS.projectId envNoTTS.synthBackend sampleReply
      = Except.ok none ∧
    Disk.processTranscription sampleSessions envNoTTS sampleCall sampleFrag sampleUser =
      updateSession sampleSessions sampleCall
        { sampleSession with
            conversationHistory := sampleSession.conversationHistory
              ++ [⟨roleUser, sampleFrag⟩, ⟨roleAssistant, sampleReply⟩]
            isProcessing := false
            audioResponses := sampleSession.audioResponses
              ++ [⟨sampleReply, emptyText, envNoTTS.now⟩] } ∧
    NoDisk.processTranscription sampleSessions envNoTTS sampleCall sampleFrag sampleUser =
      updateSession sampleSessions sampleCall
        { sampleSession with
            conversationHistory := sampleSession.conversationHistory
              ++ [⟨roleUser, sampleFrag⟩, ⟨roleAssistant, sampleReply⟩]
            isProcessing := false
            audioResponses := sampleSession.audioResponses
              ++ [⟨sampleReply, audioUrlFor sampleCall envNoTTS.now, envNoTTS.now⟩] } :=
  unconfigured_tts_text_only sampleSessions envNoTTS sampleCall sampleFrag sampleUser
    sampleSession sampleReply (by decide) (by decide) (by decide) (by rfl)
    (by decide) (by decide)

lemma specTurnsHistory_length (instr : String) :
    ∀ (ts : List TurnInput) (acc H : List Msg),
      specTurnsHistory instr acc ts = some H → H.length = 2 * ts.length := by
  intro ts
  induction ts with
  | nil =>
    intro acc H h
    simp [specTurnsHistory] at h
    simp [← h]
  | cons tu ts ih =>
    intro acc H h
    unfold specTurnsHistory at h
    cases hg : generateGeminiResponse tu.env.genBackend instr (acc ++ [⟨roleUser, tu.text⟩]) with
    | error e => simp [hg] at h
    | ok g =>
      cases hrest : specTurnsHistory instr
          (acc ++ [⟨roleUser, tu.text⟩, ⟨roleAssistant, g⟩]) ts with
      | none => simp [hg, hrest] at h
      | some rest =>
        simp [hg, hrest] at h
        have hlen := ih _ _ hrest
        rw [← h]
        simp [List.length_cons, hlen]
        omega

lemma runTurns_shape (c : String) :
    ∀ (turns : List TurnInput) (sessions : Sessions) (s : GeminiVoiceSession),
      sessions c = some s → s.isProcessing = false →
      (∀ tu ∈ turns, ∀ p, ¬ tu.env.genBackend p = GenOutcome.throws) →
      ∃ H rs,
        specTurnsHistory s.instructions s.conversationHistory
          (acceptedTurns s.agentUserId turns) = some H ∧
        (runTurns c sessions turns) c =
          some ⟨s.agentUserId, s.instructions, s.conversationHistory ++ H,
            false, s.audioResponses ++ rs⟩ := by
  intro turns
  induction turns with
  | nil =>
    intro sessions s hs hb _
    refine ⟨[], [], rfl, ?_⟩
    show sessions c = _
    rw [hs]
    cases s with
    | mk a i h b r =>
      simp only at hb
      simp [hb]
  | cons tu ts ih =>
    intro sessions s hs hb hgen
    by_cases hsp : tu.speakerId = s.agentUserId
    · have hstep : Disk.processTranscription sessions tu.env c tu.text tu.speakerId
          = sessions := disk_drop_agent sessions tu.env c tu.text tu.speakerId s hs hsp
      have hacc : acceptedTurns s.agentUserId (tu :: ts) = acceptedTurns s.agentUserId ts := by
        simp [acceptedTurns, List.filter_cons, hsp]
      obtain ⟨H, rs, h1, h2⟩ := ih sessions s hs hb
        (fun tu2 htu2 => hgen tu2 (List.mem_cons_of_mem _ htu2))
      refine ⟨H, rs, ?_, ?_⟩
      · rw [hacc]; exact h1
      · show (runTurns c (Disk.processTranscription sessions tu.env c tu.text tu.speakerId) ts) c = _
        rw [hstep]; exact h2
    · have hgg : ∃ g, generateGeminiResponse tu.env.genBackend s.instructions
          (s.conversationHistory ++ [⟨roleUser, tu.text⟩]) = Except.ok g := by
        cases hcall : tu.env.genBackend (buildPrompt s.instructions
            (s.conversationHistory ++ [⟨roleUser, tu.text⟩])) with
        | throws => exact absurd hcall (hgen tu (List.mem_cons_self tu ts) _)
        | returns t0 =>
          exact ⟨if t0 = emptyText then fallbackResponse else t0,
            by simp [generateGeminiResponse, hcall]⟩
      obtain ⟨g, hg⟩ := hgg
      obtain ⟨rs1, hstep⟩ :=
        disk_accepted sessions tu.env c tu.text tu.speakerId s g hs hb hsp hg
      obtain ⟨H, rs, h1, h2⟩ := ih (updateSession sessions c
          { s with
              conversationHistory :=
                s.conversationHistory ++ [⟨roleUser, tu.text⟩, ⟨roleAssistant, g⟩]
              isProcessing := false
              audioResponses := s.audioResponses ++ rs1 })
        _ (updateSession_self _ _ _) rfl
        (fun tu2 htu2 => hgen tu2 (List.mem_cons_of_mem _ htu2))
      refine ⟨⟨roleUser, tu.text⟩ :: ⟨roleAssistant, g⟩ :: H, rs1 ++ rs, ?_, ?_⟩
      · have hacc : acceptedTurns s.agentUserId (tu :: ts)
            = tu :: acceptedTurns s.agentUserId ts := by
          simp [acceptedTurns, List.filter_cons, hsp]
        rw [hacc]
        unfold specTurnsHistory
        simp [hg, h1]
      · show (runTurns c (Disk.processTranscription sessions tu.env c tu.text tu.speakerId) ts) c = _
        rw [hstep, h2]
        simp [List.append_assoc]

/-- C7: after N successful, non-dropped turns on a fresh session the
conversation history is exactly the alternation described by
specTurnsHistory — one user entry holding the fragment followed by one
assistant entry holding the generated response per accepted turn, in call
order — and so has exactly 2N entries; the busy flag ends cleared. -/
theorem conversation_history_alternates (c agentId instr : String)
    (turns : List TurnInput)
    (hgen : ∀ tu ∈ turns, ∀ p, ¬ tu.env.genBackend p = GenOutcome.throws) :
    ∃ H rs,
      specTurnsHistory instr [] (acceptedTurns agentId turns) = some H ∧
      H.length = 2 * (acceptedTurns agentId turns).length ∧
      (runTurns c (startSession emptySessions c agentId instr) turns) c =
        some ⟨agentId, instr, H, false, rs⟩ := by
  obtain ⟨H, rs, h1, h2⟩ := runTurns_shape c turns
    (startSession emptySessions c agentId instr)
    ⟨agentId, instr, [], false, []⟩ (by simp [startSession, updateSession]) rfl hgen
  refine ⟨H, rs, h1, specTurnsHistory_length instr _ _ _ h1, ?_⟩
  simpa using h2

/-- Witness for C7 at the concrete sample turn sequence. -/
theorem conversation_history_alternates_witness :
    ∃ H rs,
      specTurnsHistory sampleInstr [] (acceptedTurns sampleAgent sampleTurns) = some H ∧
      H.length = 2 * (acceptedTurns sampleAgent sampleTurns).length ∧
      (runTurns sampleCall (startSession emptySessions sampleCall sampleAgent sampleInstr)
          sampleTurns) sampleCall =
        some ⟨sampleAgent, sampleInstr, H, false, rs⟩ :=
  conversation_history_alternates sampleCall sampleAgent sampleInstr sampleTurns
    (by
      intro tu htu p
      simp only [sampleTurns, List.mem_cons, List.not_mem_nil, or_false] at htu
      rcases htu with rfl | rfl | rfl <;>
        · intro hcontra
          simp [envNoTTS, envTTSOk] at hcontra)

/-- C8: the retrieval route returns the no-data body when the call has no
recorded responses (in particular when no session exists), returns exactly
the last recorded entry otherwise, responds 400 when the call identifier is
missing, and responds 500 on unexpected internal failure. -/
theorem api_get_contract (sessions : Sessions) (m : String) :
    (¬ m = emptyText → getAudioResponses sessions m = [] →
      getGeminiAudio sessions m false = ApiResp.noData) ∧
    (∀ es e, ¬ m = emptyText → getAudioResponses sessions m = es ++ [e] →
      getGeminiAudio sessions m false = ApiResp.latest e.audioUrl e.text e.timestamp) ∧
    (¬ m = emptyText → sessions m = none →
      getGeminiAudio sessions m false = ApiResp.noData) ∧
    (getGeminiAudio sessions emptyText false = ApiResp.badRequest
      ∧ statusOf ApiResp.badRequest = 400) ∧
    (getGeminiAudio sessions m true = ApiResp.serverError
      ∧ statusOf ApiResp.serverError = 500) := by
  refine ⟨?_, ?_, ?_, ⟨?_, rfl⟩, ⟨?_, rfl⟩⟩
  · intro hm h
    simp [getGeminiAudio, hm, h]
  · intro es e hm h
    simp [getGeminiAudio, hm, h, List.getLast?_append_cons]
  · intro hm h
    simp [getGeminiAudio, hm, getAudioResponses, h]
  · simp [getGeminiAudio]
  · simp [getGeminiAudio]

/-- Witness for C8: the four route behaviors at concrete registries. -/
theorem api_get_contract_witness :
    getGeminiAudio sampleSessionsR sampleCall false
      = ApiResp.latest sampleEntry.audioUrl sampleEntry.text sampleEntry.timestamp ∧
    getGeminiAudio sampleSessions sampleCall false = ApiResp.noData ∧
    getGeminiAudio emptySessions sampleCall false = ApiResp.noData ∧
    getGeminiAudio sampleSessions emptyText false = ApiResp.badRequest ∧
    getGeminiAudio sampleSessions sampleCall true = ApiResp.serverError :=
  ⟨(api_get_contract sampleSessionsR sampleCall).2.1 [] sampleEntry
      (by decide) (by decide),
   (api_get_contract sampleSessions sampleCall).1 (by decide) (by decide),
   (api_get_contract emptySessions sampleCall).2.2.1 (by decide) rfl,
   (api_get_contract sampleSessions sampleCall).2.2.2.1.1,
   (api_get_contract sampleSessions sampleCall).2.2.2.2.1⟩

lemma transcript_agree (s5 s4 : Sessions) (e : Env) (c t sp : String)
    (hrel : ∀ x, SessionAgree (s5 x) (s4 x)) (hw : e.writeOk = true) :
    ∀ x, SessionAgree ((Disk.processTranscription s5 e c t sp) x)
      ((NoDisk.processTranscription s4 e c t sp) x) := by
  have hrc := hrel c
  cases h5 : s5 c with
  | none =>
    cases h4 : s4 c with
    | none =>
      rw [disk_drop_none s5 e c t sp h5, nodisk_drop_none s4 e c t sp h4]
      exact hrel
    | some b =>
      rw [h5, h4] at hrc
      exact ((hrc : False)).elim
  | some a =>
    cases h4 : s4 c with
    | none =>
      rw [h5, h4] at hrc
      exact ((hrc : False)).elim
    | some b =>
      rw [h5, h4] at hrc
      obtain ⟨hag, hin, hhist, hbusy, htexts⟩ :=
        (hrc : a.agentUserId = b.agentUserId ∧ a.instructions = b.instructions
          ∧ a.conversationHistory = b.conversationHistory
          ∧ a.isProcessing = b.isProcessing
          ∧ a.audioResponses.map (fun r => r.text) = b.audioResponses.map (fun r => r.text))
      cases hbA : a.isProcessing with
      | true =>
        rw [disk_drop_busy s5 e c t sp a h5 hbA,
          nodisk_drop_busy s4 e c t sp b h4 (by rw [← hbusy]; exact hbA)]
        exact hrel
      | false =>
        by_cases hspa : sp = a.agentUserId
        · rw [disk_drop_agent s5 e c t sp a h5 hspa,
            nodisk_drop_agent s4 e c t sp b h4 (by rw [← hag]; exact hspa)]
          exact hrel
        · have hspb : ¬ sp = b.agentUserId := by rw [← hag]; exact hspa
          have hbB : b.isProcessing = false := by rw [← hbusy]; exact hbA
          cases hgv : generateGeminiResponse e.genBackend a.instructions
              (a.conversationHistory ++ [⟨roleUser, t⟩]) with
          | error err =>
            cases err
            have hgvb : generateGeminiResponse e.genBackend b.instructions
                (b.conversationHistory ++ [⟨roleUser, t⟩])
                = Except.error GenerationFailure.backendRaised := by
              rw [← hin, ← hhist]; exact hgv
            rw [disk_genError s5 e c t sp a h5 hbA hspa hgv,
              nodisk_genError s4 e c t sp b h4 hbB hspb hgvb]
            intro x
            by_cases hx : x = c
            · subst hx
              rw [updateSession_self, updateSession_self]
              exact ⟨hag, hin, by rw [hhist], rfl, htexts⟩
            · rw [updateSession_other s5 c x _ hx, updateSession_other s4 c x _ hx]
              exact hrel x
          | ok g =>
            have hgvb : generateGeminiResponse e.genBackend b.instructions
                (b.conversationHistory ++ [⟨roleUser, t⟩]) = Except.ok g := by
              rw [← hin, ← hhist]; exact hgv
            cases httsv : textToSpeech e.keyfile e.projectId e.synthBackend g with
            | error se =>
              cases se
              rw [disk_ttsError s5 e c t sp a g h5 hbA hspa hgv httsv,
                nodisk_ttsError s4 e c t sp b g h4 hbB hspb hgvb httsv]
              intro x
              by_cases hx : x = c
              · subst hx
                rw [updateSession_self, updateSession_self]
                exact ⟨hag, hin, by rw [hhist], rfl, htexts⟩
              · rw [updateSession_other s5 c x _ hx, updateSession_other s4 c x _ hx]
                exact hrel x
            | ok o =>
              have hnod := nodisk_ttsOk s4 e c t sp b g o h4 hbB hspb hgvb httsv
              cases o with
              | none =>
                rw [disk_ttsNone s5 e c t sp a g h5 hbA hspa hgv httsv, hnod]
                intro x
                by_cases hx : x = c
                · subst hx
                  rw [updateSession_self, updateSession_self]
                  refine ⟨hag, hin, by rw [hhist], rfl, ?_⟩
                  simp [htexts]
                · rw [updateSession_other s5 c x _ hx, updateSession_other s4 c x _ hx]
                  exact hrel x
              | some bytes =>
                rw [disk_ttsSome s5 e c t sp a g bytes h5 hbA hspa hgv httsv hw, hnod]
                intro x
                by_cases hx : x = c
                · subst hx
                  rw [updateSession_self, updateSession_self]
                  refine ⟨hag, hin, by rw [hhist], rfl, ?_⟩
                  simp [htexts]
                · rw [updateSession_other s5 c x _ hx, updateSession_other s4 c x _ hx]
                  exact hrel x

lemma stepOp_agree (s5 s4 : Sessions) (op : Op)
    (hrel : ∀ x, SessionAgree (s5 x) (s4 x)) (hw : opWriteOk op = true) :
    ∀ x, SessionAgree ((stepOpDisk s5 op) x) ((stepOpNoDisk s4 op) x) := by
  cases op with
  | start c a i =>
    intro x
    by_cases hx : x = c
    · subst hx
      show SessionAgree (updateSession s5 x _ x) (updateSession s4 x _ x)
      rw [updateSession_self, updateSession_self]
      exact ⟨rfl, rfl, rfl, rfl, rfl⟩
    · show SessionAgree (updateSession s5 c _ x) (updateSession s4 c _ x)
      rw [updateSession_other s5 c x _ hx, updateSession_other s4 c x _ hx]
      exact hrel x
  | stop c =>
    intro x
    by_cases hx : x = c
    · subst hx
      simp [stepOpDisk, stepOpNoDisk, endSession, SessionAgree]
    · simp only [stepOpDisk, stepOpNoDisk, endSession]
      rw [if_neg hx, if_neg hx]
      exact hrel x
  | transcript e c t sp =>
    exact transcript_agree s5 s4 e c t sp hrel hw

lemma runOps_agree : ∀ (ops : List Op) (s5 s4 : Sessions),
    (∀ x, SessionAgree (s5 x) (s4 x)) → ops.all opWriteOk = true →
    ∀ x, SessionAgree ((runOpsDisk s5 ops) x) ((runOpsNoDisk s4 ops) x) := by
  intro ops
  induction ops with
  | nil => intro s5 s4 hrel _; exact hrel
  | cons op ops ih =>
    intro s5 s4 hrel hw
    rw [List.all_cons, Bool.and_eq_true] at hw
    exact ih (stepOpDisk s5 op) (stepOpNoDisk s4 op)
      (stepOp_agree s5 s4 op hrel hw.1) hw.2

lemma poller_run_invariant : ∀ (events : List PollEvent) (s : PlayerState),
    (s.isPlaying = false → s.pending = []) →
    ((pollerRunFrom s events).played
        ++ (pollerRunFrom s events).pending.map Prod.fst).Sublist
      ((s.played ++ s.pending.map Prod.fst) ++ acceptedUrls s.lastPlayedUrl events)
    ∧ ((pollerRunFrom s events).isPlaying = false →
        (pollerRunFrom s events).pending = []) := by
  intro events
  induction events with
  | nil =>
    intro s hInv
    exact ⟨by simp [pollerRunFrom, acceptedUrls], hInv⟩
  | cons e es ih =>
    intro s hInv
    cases e with
    | fetchFailed =>
      have h := ih s hInv
      exact ⟨h.1, h.2⟩
    | ended =>
      cases hp : s.pending with
      | nil =>
        have hstep : pollerStep s PollEvent.ended = { s with isPlaying := false } := by
          simp [pollerStep, hp]
        have h := ih { s with isPlaying := false } (fun _ => hp)
        have hconv : pollerRunFrom s (PollEvent.ended :: es)
            = pollerRunFrom { s with isPlaying := false } es := by
          show pollerRunFrom (pollerStep s PollEvent.ended) es = _
          rw [hstep]
        rw [hconv]
        refine ⟨?_, h.2⟩
        have h1 := h.1
        simpa [acceptedUrls, hp] using h1
      | cons hdp restp =>
        cases hdp with
        | mk l q =>
          have hstep : pollerStep s PollEvent.ended =
              { s with
                  isPlaying := true
                  pending := []
                  played := s.played ++ (l :: restp.map Prod.fst)
                  src := (restp.map Prod.snd).getLast?.getD q } := by
            simp [pollerStep, hp]
          have h := ih
            { s with
                isPlaying := true
                pending := []
                played := s.played ++ (l :: restp.map Prod.fst)
                src := (restp.map Prod.snd).getLast?.getD q }
            (fun hcontra => Bool.noConfusion hcontra)
          have hconv : pollerRunFrom s (PollEvent.ended :: es)
              = pollerRunFrom
                { s with
                    isPlaying := true
                    pending := []
                    played := s.played ++ (l :: restp.map Prod.fst)
                    src := (restp.map Prod.snd).getLast?.getD q } es := by
            show pollerRunFrom (pollerStep s PollEvent.ended) es = _
            rw [hstep]
          rw [hconv]
          refine ⟨?_, h.2⟩
          have h1 := h.1
          simpa [acceptedUrls, hp] using h1
    | fetched u now =>
      cases u with
      | none =>
        have h := ih s hInv
        exact ⟨h.1, h.2⟩
      | some url =>
        by_cases hurl : url = emptyText
        · have hstep : pollerStep s (PollEvent.fetched (some url) now) = s := by
            simp [pollerStep, hurl]
          have hacc : acceptedUrls s.lastPlayedUrl (PollEvent.fetched (some url) now :: es)
              = acceptedUrls s.lastPlayedUrl es := by
            simp [acceptedUrls, hurl]
          have h := ih s hInv
          have hconv : pollerRunFrom s (PollEvent.fetched (some url) now :: es)
              = pollerRunFrom s es := by
            show pollerRunFrom (pollerStep s (PollEvent.fetched (some url) now)) es = _
            rw [hstep]
          rw [hconv, hacc]
          exact ⟨h.1, h.2⟩
        · by_cases hlast : some url = s.lastPlayedUrl
          · have hstep : pollerStep s (PollEvent.fetched (some url) now) = s := by
              simp [pollerStep, hurl, hlast]
            have hacc : acceptedUrls s.lastPlayedUrl (PollEvent.fetched (some url) now :: es)
                = acceptedUrls s.lastPlayedUrl es := by
              simp [acceptedUrls, hurl, hlast]
            have h := ih s hInv
            have hconv : pollerRunFrom s (PollEvent.fetched (some url) now :: es)
                = pollerRunFrom s es := by
              show pollerRunFrom (pollerStep s (PollEvent.fetched (some url) now)) es = _
              rw [hstep]
            rw [hconv, hacc]
            exact ⟨h.1, h.2⟩
          · have hacc : acceptedUrls s.lastPlayedUrl (PollEvent.fetched (some url) now :: es)
                = url :: acceptedUrls (some url) es := by
              simp [acceptedUrls, hurl, hlast]
            by_cases hsrc : s.src = url ++ cacheBust ++ toString now
            · have hstep : pollerStep s (PollEvent.fetched (some url) now)
                  = { s with lastPlayedUrl := some url } := by
                simp [pollerStep, hurl, hlast, hsrc]
              have h := ih { s with lastPlayedUrl := some url } hInv
              have hconv : pollerRunFrom s (PollEvent.fetched (some url) now :: es)
                  = pollerRunFrom { s with lastPlayedUrl := some url } es := by
                show pollerRunFrom (pollerStep s (PollEvent.fetched (some url) now)) es = _
                rw [hstep]
              rw [hconv, hacc]
              refine ⟨?_, h.2⟩
              refine h.1.trans ?_
              exact (List.sublist_cons_self url _).append_left _
            · by_cases hplay : s.isPlaying = true
              · have hstep : pollerStep s (PollEvent.fetched (some url) now)
                    = { s with
                          lastPlayedUrl := some url
                          pending := s.pending ++ [(url, url ++ cacheBust ++ toString now)] } := by
                  simp [pollerStep, hurl, hlast, hsrc, hplay]
                have h := ih
                  { s with
                      lastPlayedUrl := some url
                      pending := s.pending ++ [(url, url ++ cacheBust ++ toString now)] }
                  (fun hcontra => by rw [hplay] at hcontra; exact Bool.noConfusion hcontra)
                have hconv : pollerRunFrom s (PollEvent.fetched (some url) now :: es)
                    = pollerRunFrom
                      { s with
                          lastPlayedUrl := some url
                          pending := s.pending ++ [(url, url ++ cacheBust ++ toString now)] }
                      es := by
                  show pollerRunFrom (pollerStep s (PollEvent.fetched (some url) now)) es = _
                  rw [hstep]
                rw [hconv, hacc]
                refine ⟨?_, h.2⟩
                have h1 := h.1
                simpa [List.append_assoc] using h1
              · have hpend : s.pending = [] := hInv (by
                  cases hb : s.isPlaying
                  · rfl
                  · exact absurd hb hplay)
                have hstep : pollerStep s (PollEvent.fetched (some url) now)
                    = { s with
                          lastPlayedUrl := some url
                          src := url ++ cacheBust ++ toString now
                          isPlaying := true
                          played := s.played ++ [url] } := by
                  simp [pollerStep, hurl, hlast, hsrc, hplay]
                have h := ih
                  { s with
                      lastPlayedUrl := some url
                      src := url ++ cacheBust ++ toString now
                      isPlaying := true
                      played := s.played ++ [url] }
                  (fun hcontra => Bool.noConfusion hcontra)
                have hconv : pollerRunFrom s (PollEvent.fetched (some url) now :: es)
                    = pollerRunFrom
                      { s with
                          lastPlayedUrl := some url
                          src := url ++ cacheBust ++ toString now
                          isPlaying := true
                          played := s.played ++ [url] } es := by
                  show pollerRunFrom (pollerStep s (PollEvent.fetched (some url) now)) es = _
                  rw [hstep]
                rw [hconv, hacc]
                refine ⟨?_, h.2⟩
                have h1 := h.1
                simpa [hpend, List.append_assoc] using h1

/-- C9: the poller never plays the same locator twice provided the feed
never re-presents a locator it moved away from (the sequence of accepted
locators has no duplicates, which the append-only latest-entry feed of the
repository guarantees); a locator observed while audio is playing changes
neither the element source nor the play trace (the swap is only queued);
and the queued swap is applied exactly at playback-end, restarting
playback with the queued locators. -/
theorem poller_never_replays_never_interrupts :
    (∀ events : List PollEvent, (acceptedUrls none events).Nodup →
      ((pollerRun events).played).Nodup)
    ∧ (∀ (s : PlayerState) (u : Option String) (now : Nat), s.isPlaying = true →
        (pollerStep s (PollEvent.fetched u now)).src = s.src
        ∧ (pollerStep s (PollEvent.fetched u now)).played = s.played)
    ∧ (∀ (s : PlayerState) (l q : String) (rest : List (String × String)),
        s.pending = (l, q) :: rest →
        (pollerStep s PollEvent.ended).played = s.played ++ (l :: rest.map Prod.fst)
        ∧ (pollerStep s PollEvent.ended).isPlaying = true
        ∧ (pollerStep s PollEvent.ended).pending = []) := by
  refine ⟨?_, ?_, ?_⟩
  · intro events hnd
    have h := (poller_run_invariant events initPlayer (fun _ => rfl)).1
    have h2 : ((pollerRun events).played).Sublist
        ((pollerRun events).played ++ (pollerRun events).pending.map Prod.fst) :=
      List.sublist_append_left _ _
    exact hnd.sublist (h2.trans h)
  · intro s u now hplay
    cases u with
    | none => exact ⟨rfl, rfl⟩
    | some url =>
      by_cases hurl : url = emptyText
      · simp [pollerStep, hurl]
      · by_cases hlast : some url = s.lastPlayedUrl
        · simp [pollerStep, hurl, hlast]
        · by_cases hsrc : s.src = url ++ cacheBust ++ toString now
          · simp [pollerStep, hurl, hlast, hsrc]
          · simp [pollerStep, hurl, hlast, hsrc, hplay]
  · intro s l q rest hp
    refine ⟨?_, ?_, ?_⟩ <;> simp [pollerStep, hp]

/-- Witness for C9 at a concrete event trace, a concrete playing state, and
a concrete pending swap. -/
theorem poller_never_replays_never_interrupts_witness :
    ((pollerRun sampleEvents).played).Nodup
    ∧ ((pollerStep samplePlaying (PollEvent.fetched (some sampleCall2) 3)).src
        = samplePlaying.src
      ∧ (pollerStep samplePlaying (PollEvent.fetched (some sampleCall2) 3)).played
        = samplePlaying.played)
    ∧ ((pollerStep samplePendingSwap PollEvent.ended).played
        = samplePendingSwap.played ++ (sampleCall2 :: ([] : List (String × String)).map Prod.fst)
      ∧ (pollerStep samplePendingSwap PollEvent.ended).isPlaying = true
      ∧ (pollerStep samplePendingSwap PollEvent.ended).pending = []) :=
  ⟨poller_never_replays_never_interrupts.1 sampleEvents (by decide),
   poller_never_replays_never_interrupts.2.1 samplePlaying (some sampleCall2) 3 (by decide),
   poller_never_replays_never_interrupts.2.2 samplePendingSwap sampleCall2
     (sampleCall2 ++ cacheBust ++ toString 3) [] (by decide)⟩

/-- C10: on any identical sequence of startSession, processTranscription
and endSession operations with identical backend behaviors in which every
artifact write succeeds, the two voice-service implementations produce,
for every call id, identical conversation histories and identical
sequences of recorded response texts; they differ only in the recorded
locator values and in whether audio bytes are persisted to a file. -/
theorem implementations_equivalent (ops : List Op) (hw : ops.all opWriteOk = true) :
    ∀ x, Option.map (fun s => s.conversationHistory) ((runOpsDisk emptySessions ops) x)
        = Option.map (fun s => s.conversationHistory) ((runOpsNoDisk emptySessions ops) x)
      ∧ Option.map (fun s => s.audioResponses.map (fun r => r.text))
          ((runOpsDisk emptySessions ops) x)
        = Option.map (fun s => s.audioResponses.map (fun r => r.text))
          ((runOpsNoDisk emptySessions ops) x) := by
  intro x
  have h := runOps_agree ops emptySessions emptySessions
    (fun _ => trivial) hw x
  cases hd : (runOpsDisk emptySessions ops) x with
  | none =>
    cases hn : (runOpsNoDisk emptySessions ops) x with
    | none => simp
    | some b =>
      rw [hd, hn] at h
      exact ((h : False)).elim
  | some a =>
    cases hn : (runOpsNoDisk emptySessions ops) x with
    | none =>
      rw [hd, hn] at h
      exact ((h : False)).elim
    | some b =>
      rw [hd, hn] at h
      obtain ⟨_, _, hhist, _, htexts⟩ :=
        (h : a.agentUserId = b.agentUserId ∧ a.instructions = b.instructions
          ∧ a.conversationHistory = b.conversationHistory
          ∧ a.isProcessing = b.isProcessing
          ∧ a.audioResponses.map (fun r => r.text) = b.audioResponses.map (fun r => r.text))
      simp [hhist, htexts]

/-- Witness for C10 at the concrete sample operation sequence. -/
theorem implementations_equivalent_witness :
    Option.map (fun s => s.conversationHistory)
        ((runOpsDisk emptySessions sampleOps) sampleCall)
      = Option.map (fun s => s.conversationHistory)
        ((runOpsNoDisk emptySessions sampleOps) sampleCall)
    ∧ Option.map (fun s => s.audioResponses.map (fun r => r.text))
        ((runOpsDisk emptySessions sampleOps) sampleCall)
      = Option.map (fun s => s.audioResponses.map (fun r => r.text))
        ((runOpsNoDisk emptySessions sampleOps) sampleCall) :=
  implementations_equivalent sampleOps (by decide) sampleCall

end HelloVoice
